import Mathlib

/-!
Shallow embedding of `src/script.js` (photo-share frontend) and proofs about it.

The embedding models:
* the HTML escaping utility `escapeHtml` (script.js lines 48-61);
* the localStorage-backed session store (`getToken` / `setToken` / role / name,
  lines 63-97) with `localStorage` modelled as an association list;
* the authenticated fetch wrapper `fetchWithAuth` (lines 99-126) split into the
  pure request-building part and the 401-handling part, with `logout`
  (lines 418-424);
* the two debounced suggestion widgets, `setupLocationAutocomplete`
  (lines 181-284) and `setupPeopleSelector` (lines 286-416), as explicit
  transition systems over widget states.  The browser event loop is modelled by
  an event trace: input events, debounce-timer firings, network-response
  arrivals (in any order, carrying their outcome), suggestion commits
  (mousedown), chip removal, delayed blur clears, and `reset()` calls.
-/

namespace PhotoShare

/-! ## JavaScript value fragment used by `escapeHtml` -/

/-- The fragment of JavaScript values `escapeHtml` can receive: a string,
`null`, `undefined`, or some other non-string value (numbers, booleans,
objects), which the function returns unchanged. -/
inductive JSVal where
  | jstr (s : String)
  | jnull
  | jundef
  | jnum (n : Int)
  | jbool (b : Bool)
  deriving DecidableEq, Repr

/-- `htmlEscapeMap` from script.js lines 48-54: the entity for each of the five
escaped characters; any other character is left as itself by the regex
replacement. -/
def htmlEscapeMap (c : Char) : String :=
  if c = '&' then "&amp;"
  else if c = '<' then "&lt;"
  else if c = '>' then "&gt;"
  else if c = '"' then "&quot;"
  else if c = '\'' then "&#39;"
  else String.singleton c

/-- The character class `[&<>"']` of the regex on script.js line 60. -/
def isEscapedChar (c : Char) : Bool :=
  c = '&' || c = '<' || c = '>' || c = '"' || c = '\''

/-- Character-wise expansion underlying the global single-character-class
replace: each character is replaced by `htmlEscapeMap` output (itself for
unmatched characters). -/
def escapeChars : List Char → List Char
  | [] => []
  | c :: cs => (htmlEscapeMap c).data ++ escapeChars cs

/-- `value.replace(/[&<>"']/g, (char) => htmlEscapeMap[char])` (script.js
line 60): a global single-character-class replace is exactly a character-wise
map-concatenation. -/
def escapeHtmlStr (s : String) : String :=
  ⟨escapeChars s.data⟩

/-- `escapeHtml` from script.js lines 56-61: non-strings pass through
`value ?? ''`, which maps `null`/`undefined` to the empty string and leaves
any other value unchanged; strings get the character-wise replacement. -/
def escapeHtml (value : JSVal) : JSVal :=
  match value with
  | .jstr s => .jstr (escapeHtmlStr s)
  | .jnull => .jstr ""
  | .jundef => .jstr ""
  | v => v

/-! ## localStorage and the session store -/

/-- `localStorage` modelled as an association list from keys to stored strings
(insertion keeps one binding per key). -/
abbrev Storage := List (String × String)

/-- `localStorage.getItem`: `none` stands for JavaScript `null` (absent key). -/
def getItem (st : Storage) (k : String) : Option String :=
  (st.find? (fun p => p.1 = k)).map (fun p => p.2)

/-- `localStorage.setItem`: replaces any existing binding for the key. -/
def setItem (st : Storage) (k v : String) : Storage :=
  (k, v) :: st.filter (fun p => p.1 ≠ k)

/-- `localStorage.removeItem`. -/
def removeItem (st : Storage) (k : String) : Storage :=
  st.filter (fun p => p.1 ≠ k)

/-- A JavaScript string-or-null argument; `none` is `null`/`undefined`.
Truthiness of `some s` is `s ≠ ""`. -/
def truthy : Option String → Bool
  | none => false
  | some s => s ≠ ""

/-- `getToken` (script.js lines 63-65):
`localStorage.getItem('photoshare_token') || null` — an absent key or a stored
empty string both read as `null`. -/
def getToken (st : Storage) : Option String :=
  match getItem st "photoshare_token" with
  | none => none
  | some s => if s = "" then none else some s

/-- `setToken` (script.js lines 67-73): store the token when truthy, remove
the key otherwise. -/
def setToken (token : Option String) (st : Storage) : Storage :=
  if truthy token then setItem st "photoshare_token" (token.getD "")
  else removeItem st "photoshare_token"

/-- `getUserRole` (script.js lines 75-77). -/
def getUserRole (st : Storage) : Option String :=
  match getItem st "photoshare_role" with
  | none => none
  | some s => if s = "" then none else some s

/-- `setUserRole` (script.js lines 79-85). -/
def setUserRole (role : Option String) (st : Storage) : Storage :=
  if truthy role then setItem st "photoshare_role" (role.getD "")
  else removeItem st "photoshare_role"

/-- `setUserName` (script.js lines 87-93). -/
def setUserName (name : Option String) (st : Storage) : Storage :=
  if truthy name then setItem st "photoshare_name" (name.getD "")
  else removeItem st "photoshare_name"

/-- `getUserName` (script.js lines 95-97). -/
def getUserName (st : Storage) : Option String :=
  match getItem st "photoshare_name" with
  | none => none
  | some s => if s = "" then none else some s

/-! ## JSON values and `JSON.stringify` (builtin used on script.js line 106) -/

/-- JSON-serialisable values passed as structured request bodies. -/
inductive Json where
  | jnull
  | jbool (b : Bool)
  | jnum (n : Int)
  | jstr (s : String)
  | jarr (elems : List Json)
  | jobj (fields : List (String × Json))

/-- String escaping performed by `JSON.stringify` (backslash and quote). -/
def jsonEscape (s : String) : String :=
  String.join (s.data.map (fun c =>
    if c = '\\' then "\\\\"
    else if c = '"' then "\\\""
    else String.singleton c))

mutual

/-- `JSON.stringify`, modelled for the JSON value fragment above. -/
def jsonStringify : Json → String
  | .jnull => "null"
  | .jbool true => "true"
  | .jbool false => "false"
  | .jnum n => toString n
  | .jstr s => "\"" ++ jsonEscape s ++ "\""
  | .jarr elems => "[" ++ jsonStringifyElems elems ++ "]"
  | .jobj fields => "\x7b" ++ jsonStringifyFields fields ++ "\x7d"

/-- Comma-separated serialisation of array elements. -/
def jsonStringifyElems : List Json → String
  | [] => ""
  | [x] => jsonStringify x
  | x :: y :: xs => jsonStringify x ++ "," ++ jsonStringifyElems (y :: xs)

/-- Comma-separated serialisation of object fields. -/
def jsonStringifyFields : List (String × Json) → String
  | [] => ""
  | [(k, v)] => "\"" ++ jsonEscape k ++ "\":" ++ jsonStringify v
  | (k, v) :: f :: xs =>
      "\"" ++ jsonEscape k ++ "\":" ++ jsonStringify v ++ "," ++ jsonStringifyFields (f :: xs)

end

/-! ## The authenticated fetch wrapper `fetchWithAuth` (script.js lines 99-126)

The wrapper has a pure part — building the outgoing request (lines 99-117) —
and a response part — the 401 policy (lines 119-125).  We model them
separately. -/

/-- The request body as the wrapper sees it: absent (`undefined`), a
`FormData` object, an already-serialised string, or a structured JSON value. -/
inductive BodyVal where
  | noBody
  | formData (parts : List (String × String))
  | strBody (s : String)
  | jsonBody (j : Json)

/-- `options.body instanceof FormData` (script.js line 103). -/
def BodyVal.isFormData : BodyVal → Bool
  | .formData _ => true
  | _ => false

/-- JavaScript truthiness of the body: `undefined` and the empty string are
falsy, everything else (objects, non-empty strings) is truthy. -/
def BodyVal.isTruthy : BodyVal → Bool
  | .noBody => false
  | .strBody s => s ≠ ""
  | _ => true

/-- `typeof options.body !== 'string'` (script.js line 105). -/
def BodyVal.isStringBody : BodyVal → Bool
  | .strBody _ => true
  | _ => false

/-- Header list in insertion order; `Headers.set` overwrites in place. -/
abbrev HeaderList := List (String × String)

/-- `Headers.prototype.set`: replace the value of an existing header,
or append the pair when the name is absent. -/
def headersSet (hs : HeaderList) (k v : String) : HeaderList :=
  if hs.any (fun p => p.1 = k) then
    hs.map (fun p => if p.1 = k then (k, v) else p)
  else hs ++ [(k, v)]

/-- `Headers.prototype.get`. -/
def headersGet (hs : HeaderList) (k : String) : Option String :=
  (hs.find? (fun p => p.1 = k)).map (fun p => p.2)

/-- The `options` argument of `fetchWithAuth`. -/
structure RequestOptions where
  method : String := "GET"
  headers : HeaderList := []
  body : BodyVal := .noBody

/-- The request handed to `fetch` on script.js line 114. -/
structure BuiltRequest where
  url : String
  method : String
  headers : HeaderList
  body : BodyVal

/-- The pure request-building part of `fetchWithAuth` (script.js lines
99-117): read the token, copy the caller's headers, set the JSON content
type and serialise a structured body whenever the body is not `FormData`,
attach the bearer header when a token is stored, and target the configured
base address concatenated with the relative path. -/
def buildAuthRequest (apiBase : String) (st : Storage) (path : String)
    (opts : RequestOptions) : BuiltRequest :=
  let token := getToken st
  let headers := opts.headers
  let hb : HeaderList × BodyVal :=
    if opts.body.isFormData then (headers, opts.body)
    else
      let headers := headersSet headers "Content-Type" "application/json"
      let body :=
        if opts.body.isTruthy && !opts.body.isStringBody then
          match opts.body with
          | .jsonBody j => BodyVal.strBody (jsonStringify j)
          | b => b
        else opts.body
      (headers, body)
  let headers :=
    match token with
    | some t => headersSet hb.1 "Authorization" ("Bearer " ++ t)
    | none => hb.1
  { url := apiBase ++ path, method := opts.method, headers := headers, body := hb.2 }

/-! ## The 401 policy and `logout` (script.js lines 119-125 and 418-424) -/

/-- The in-memory current user (script.js line 46 `currentUser`): we track the
fields the modelled code reads. -/
structure User where
  id : String
  name : String
  deriving DecidableEq, Repr

/-- The browser-global state the 401 policy touches: persistent storage, the
in-memory current user, and `window.location.href`. -/
structure BrowserSession where
  storage : Storage
  currentUser : Option User
  location : String
  deriving DecidableEq, Repr

/-- `logout` (script.js lines 418-424): clear the token, role and name keys,
drop the in-memory user, and navigate to the login page.  (Note: the
`photoshare_user_id` key written on lines 807 and 1198 is not cleared.) -/
def logout (s : BrowserSession) : BrowserSession :=
  { storage := setUserName none (setUserRole none (setToken none s.storage)),
    currentUser := none,
    location := "login.html" }

/-- An HTTP response as the wrapper observes it. -/
structure HttpResponse where
  status : Nat
  deriving DecidableEq, Repr

/-- Outcome of an awaited `fetchWithAuth` call: the response, or a rejected
promise carrying the error message. -/
inductive FetchResult where
  | ok (resp : HttpResponse)
  | rejected (msg : String)
  deriving DecidableEq, Repr

/-- The response part of `fetchWithAuth` (script.js lines 119-125): on 401,
run `logout()`, set `window.location.href = 'login.html'` again, and reject
the in-flight call with `Error('Unauthorized')`; otherwise pass the response
through. -/
def handleAuthResponse (resp : HttpResponse) (s : BrowserSession) :
    BrowserSession × FetchResult :=
  if resp.status = 401 then
    let s1 := logout s
    ({ s1 with location := "login.html" }, .rejected "Unauthorized")
  else (s, .ok resp)

/-! ## Suggestion-fetch outcomes shared by both widgets

A dispatched fetch eventually resolves with one of these outcomes, observed
at the `await` points of `fetchSuggestions`.  `α` is the element type of a
successfully parsed JSON array. -/

/-- What `res.json()` produced: a rejection (malformed body), a truthy
non-array value (so `.map` throws a `TypeError`), a falsy value (so
`data || []` yields `[]`), or an array of items. -/
inductive Payload (α : Type) where
  | malformed
  | nonArray
  | nullish
  | items (l : List α)
  deriving DecidableEq, Repr

/-- Outcome of one dispatched suggestion fetch: transport failure (the fetch
promise rejected — for the people selector this also covers the 401 rejection
of `fetchWithAuth`), or a response with a status and a parse result. -/
inductive FetchOutcome (α : Type) where
  | netFail
  | resp (status : Nat) (payload : Payload α)
  deriving DecidableEq, Repr

/-- `res.ok`: status in the range 200-299. -/
def resOk (status : Nat) : Bool :=
  200 ≤ status && status < 300

/-- The failure modes of claim C7: transport failure, non-success status, or
a response body that cannot be used as a suggestion array. -/
def FetchOutcome.isFailure {α : Type} : FetchOutcome α → Bool
  | .netFail => true
  | .resp status payload =>
      !resOk status ||
        (match payload with
         | .malformed => true
         | .nonArray => true
         | _ => false)

/-- Leading-whitespace removal on a character list. -/
def dropLeadingWs : List Char → List Char
  | [] => []
  | c :: cs => if c.isWhitespace then dropLeadingWs cs else c :: cs

/-- The JavaScript builtin `String.prototype.trim`: strip leading and
trailing whitespace. -/
def jsTrim (s : String) : String :=
  ⟨dropLeadingWs ((dropLeadingWs s.data.reverse).reverse)⟩

/-- `DEFAULT_AVATAR` (script.js line 4). -/
def defaultAvatar : String := "https://placehold.co/40x40?text=%2B"

/-! ## Location autocomplete widget (`setupLocationAutocomplete`,
script.js lines 181-284)

State of the closure: `inputEl.value`, `selectedValue`, `results`, whether
`suggestionsEl` carries the `hidden` class (its innerHTML is rendered from
`results`, so we keep only the list), the pending debounce timer with the
query value captured by its callback, and the dispatched-but-unresolved
fetches in dispatch order. -/

/-- A place record returned by the geocoding service, with the two fields
the widget reads (script.js lines 235-238). -/
structure RawPlace where
  place_id : String
  display_name : String
  deriving DecidableEq, Repr

/-- A suggestion as stored in `results` (`{ id, name }`). -/
structure Suggestion where
  id : String
  name : String
  deriving DecidableEq, Repr

/-- Closure state of `setupLocationAutocomplete`. -/
structure LocState where
  inputValue : String
  selectedValue : String
  results : List Suggestion
  listHidden : Bool
  pendingTimer : Option String
  inFlight : List String
  deriving DecidableEq, Repr

/-- State right after construction (script.js lines 184-186): `timeout`
undefined, `results` empty, `selectedValue = inputEl.value.trim()`, and the
suggestion container empty/hidden. -/
def locInit (initialInput : String) : LocState :=
  { inputValue := initialInput
    selectedValue := jsTrim initialInput
    results := []
    listHidden := true
    pendingTimer := none
    inFlight := [] }

/-- `clearSuggestions` (script.js lines 188-192). -/
def locClearSuggestions (s : LocState) : LocState :=
  { s with results := [], listHidden := true }

/-- The body of the `try` block of `fetchSuggestions` (script.js lines
218-239) after the response arrives, with `.error` marking the points where
the JavaScript code throws (a rejected `res.json()` or `.map` on a
non-array). -/
def locFetchTry (s : LocState) (out : FetchOutcome RawPlace) :
    Except String LocState :=
  match out with
  | .netFail => .error "NetworkError"
  | .resp status payload =>
    if !resOk status then .ok (locClearSuggestions s)
    else
      match payload with
      | .malformed => .error "SyntaxError"
      | .nonArray => .error "TypeError"
      | .nullish =>
          -- `(data || []).map` gives `[]`; `renderSuggestions([])` clears.
          .ok (locClearSuggestions { s with results := [] })
      | .items l =>
          let res := l.map (fun it => Suggestion.mk it.place_id it.display_name)
          if res.isEmpty then .ok (locClearSuggestions { s with results := res })
          else .ok { s with results := res, listHidden := false }

/-- `fetchSuggestions` response handling with its `catch` (script.js lines
240-242): any exception from the `try` body is swallowed and the list is
cleared.  Note there is no sequence-number (or any other staleness) check:
whichever response arrives is rendered. -/
def locFetchResponse (s : LocState) (out : FetchOutcome RawPlace) : LocState :=
  match locFetchTry s out with
  | .ok s1 => s1
  | .error _ => locClearSuggestions s

/-- Events the location widget reacts to. -/
inductive LocEvent where
  | input (text : String)
  | timerFire
  | arrive (i : Nat) (out : FetchOutcome RawPlace)
  | commit (index : Nat)
  | blurFire
  | reset

/-- One step of the location widget.

* `input` (script.js lines 245-254): update `selectedValue` and the field,
  cancel the pending timer; below the 2-character threshold clear the list
  and stop, otherwise arm a new 250 ms timer capturing the trimmed value.
* `timerFire`: the pending timer fires and dispatches `fetchSuggestions`.
* `arrive i out`: the `i`-th in-flight fetch (in dispatch order) resolves
  with outcome `out`; arrivals may happen in any order.
* `commit` (mousedown, lines 256-266): a rendered suggestion is selected.
* `blurFire` (lines 268-272): the 150 ms post-blur clear runs.
* `reset` (lines 278-282): clear `selectedValue`, the field and the list —
  the pending timer and in-flight fetches are not touched. -/
def locStep (s : LocState) : LocEvent → LocState
  | .input t =>
      let s1 := { s with inputValue := t, selectedValue := jsTrim t,
                         pendingTimer := none }
      let value := jsTrim t
      if value.length < 2 then locClearSuggestions s1
      else { s1 with pendingTimer := some value }
  | .timerFire =>
      match s.pendingTimer with
      | none => s
      | some q => { s with pendingTimer := none, inFlight := s.inFlight ++ [q] }
  | .arrive i out =>
      if i < s.inFlight.length then
        locFetchResponse { s with inFlight := s.inFlight.eraseIdx i } out
      else s
  | .commit index =>
      match s.results[index]? with
      | some sugg =>
          locClearSuggestions
            { s with selectedValue := sugg.name, inputValue := sugg.name }
      | none => s
  | .blurFire => locClearSuggestions s
  | .reset =>
      locClearSuggestions { s with selectedValue := "", inputValue := "" }

/-- Run the location widget over an event trace. -/
def locRun (s : LocState) (events : List LocEvent) : LocState :=
  events.foldl locStep s

/-- `getValue` (script.js lines 275-277). -/
def locGetValue (s : LocState) : String :=
  if s.selectedValue ≠ "" then s.selectedValue else jsTrim s.inputValue

/-! ## People selector widget (`setupPeopleSelector`, script.js lines 286-416)

Same shape as the location widget, plus the multi-select `selected` list
(the chip list rendered by `renderSelected` is derived from it).  The
widget's query function is `fetchWithAuth`, so a 401 response surfaces to the
widget as a rejected promise (the global session teardown it also triggers is
modelled by `handleAuthResponse` above and is not part of the closure
state). -/

/-- A user record from `/users/search`, with the fields the widget reads. -/
structure Person where
  id : String
  name : String
  avatarUrl : Option String
  deriving DecidableEq, Repr

/-- `person.avatarUrl || DEFAULT_AVATAR` (script.js line 360): a missing or
empty avatar URL falls back to the default. -/
def avatarOrDefault : Option String → String
  | none => defaultAvatar
  | some a => if a = "" then defaultAvatar else a

/-- `person.id !== currentUser?.id` (script.js line 357): with no current
user the comparison is against `undefined` and every string id passes. -/
def notSelf (cu : Option String) (p : Person) : Bool :=
  match cu with
  | none => true
  | some uid => p.id ≠ uid

/-- Closure state of `setupPeopleSelector`. -/
structure PeopleState where
  inputValue : String
  selected : List Person
  results : List Person
  listHidden : Bool
  pendingTimer : Option String
  inFlight : List String
  deriving DecidableEq, Repr

/-- State right after construction (script.js lines 289-291). -/
def peopleInit : PeopleState :=
  { inputValue := ""
    selected := []
    results := []
    listHidden := true
    pendingTimer := none
    inFlight := [] }

/-- `clearSuggestions` (script.js lines 316-320). -/
def peopleClearSuggestions (s : PeopleState) : PeopleState :=
  { s with results := [], listHidden := true }

/-- The filter-and-map applied to a parsed suggestion array (script.js lines
355-361): drop already-selected ids and the current user's own id, then
default the avatar. -/
def peopleFilterResults (cu : Option String) (selected : List Person)
    (data : List Person) : List Person :=
  (data.filter (fun p =>
      !(decide (p.id ∈ selected.map Person.id)) && notSelf cu p)).map
    (fun p => { p with avatarUrl := some (avatarOrDefault p.avatarUrl) })

/-- The body of the `try` block of the people `fetchSuggestions` (script.js
lines 346-362).  A 401 response makes `fetchWithAuth` reject (script.js line
122), which the widget's `catch` then handles; other non-success statuses
return early after clearing. -/
def peopleFetchTry (cu : Option String) (s : PeopleState)
    (out : FetchOutcome Person) : Except String PeopleState :=
  match out with
  | .netFail => .error "NetworkError"
  | .resp status payload =>
    if status = 401 then .error "Unauthorized"
    else if !resOk status then .ok (peopleClearSuggestions s)
    else
      match payload with
      | .malformed => .error "SyntaxError"
      | .nonArray => .error "TypeError"
      | .nullish => .ok (peopleClearSuggestions { s with results := [] })
      | .items l =>
          let res := peopleFilterResults cu s.selected l
          if res.isEmpty then .ok (peopleClearSuggestions { s with results := res })
          else .ok { s with results := res, listHidden := false }

/-- Response handling with the `catch` (script.js lines 363-365). -/
def peopleFetchResponse (cu : Option String) (s : PeopleState)
    (out : FetchOutcome Person) : PeopleState :=
  match peopleFetchTry cu s out with
  | .ok s1 => s1
  | .error _ => peopleClearSuggestions s

/-- Events the people selector reacts to. -/
inductive PeopleEvent where
  | input (text : String)
  | timerFire
  | arrive (i : Nat) (out : FetchOutcome Person)
  | commit (index : Nat)
  | removeChip (id : String)
  | blurFire
  | reset

/-- One step of the people selector (`cu` is the current authenticated
user's id, `currentUser?.id`, fixed for the widget's lifetime since
`hydrateSession` runs before the page binders).

* `input` (script.js lines 368-376): cancel the pending timer; below the
  2-character threshold clear the list, otherwise arm a 200 ms timer.
* `timerFire`: dispatch `fetchSuggestions` with the captured value.
* `arrive i out`: the `i`-th in-flight fetch resolves, in any order.
* `commit` (mousedown, lines 378-389): push the suggestion onto `selected`,
  clear the field, clear the list.
* `removeChip` (lines 391-397): drop every selected person with that id.
* `blurFire` (lines 399-403): the 150 ms post-blur clear runs.
* `reset` (lines 409-414): empty `selected`, clear the list, clear the
  field — the pending timer and in-flight fetches are not touched. -/
def peopleStep (cu : Option String) (s : PeopleState) : PeopleEvent → PeopleState
  | .input t =>
      let s1 := { s with inputValue := t, pendingTimer := none }
      let value := jsTrim t
      if value.length < 2 then peopleClearSuggestions s1
      else { s1 with pendingTimer := some value }
  | .timerFire =>
      match s.pendingTimer with
      | none => s
      | some q => { s with pendingTimer := none, inFlight := s.inFlight ++ [q] }
  | .arrive i out =>
      if i < s.inFlight.length then
        peopleFetchResponse cu { s with inFlight := s.inFlight.eraseIdx i } out
      else s
  | .commit index =>
      match s.results[index]? with
      | some selection =>
          peopleClearSuggestions
            { s with selected := s.selected ++ [selection], inputValue := "" }
      | none => s
  | .removeChip id =>
      { s with selected := s.selected.filter (fun p => p.id ≠ id) }
  | .blurFire => peopleClearSuggestions s
  | .reset =>
      peopleClearSuggestions { s with selected := [], inputValue := "" }

/-- Run the people selector over an event trace. -/
def peopleRun (cu : Option String) (s : PeopleState)
    (events : List PeopleEvent) : PeopleState :=
  events.foldl (peopleStep cu) s

/-- `getSelectedIds` (script.js lines 406-408). -/
def getSelectedIds (s : PeopleState) : List String :=
  s.selected.map Person.id

/-! ## Association-list lemmas for the localStorage model -/

theorem find_key_filter_ne (st : Storage) (k k' : String) (h : k' ≠ k) :
    (st.filter (fun p => p.1 ≠ k)).find? (fun p => p.1 = k') =
      st.find? (fun p => p.1 = k') := by
  rw [List.find?_filter]
  congr 1
  funext a
  by_cases hq : a.1 = k'
  · have hk : ¬a.1 = k := fun e => h (by rw [← hq, e])
    simp [hq, hk, h]
  · simp [hq]

theorem getItem_setItem_self (st : Storage) (k v : String) :
    getItem (setItem st k v) k = some v := by
  simp [getItem, setItem]

theorem getItem_setItem_ne (st : Storage) (k k' v : String) (h : k' ≠ k) :
    getItem (setItem st k v) k' = getItem st k' := by
  simp only [getItem, setItem]
  rw [List.find?_cons_of_neg _ (by simpa using Ne.symm h),
    find_key_filter_ne st k k' h]

theorem getItem_removeItem_self (st : Storage) (k : String) :
    getItem (removeItem st k) k = none := by
  have hnone : (st.filter (fun p => p.1 ≠ k)).find? (fun p => p.1 = k) = none := by
    rw [List.find?_eq_none]
    intro x hx
    have hx2 := (List.mem_filter.mp hx).2
    simp at hx2 ⊢
    exact hx2
  simp [getItem, removeItem, hnone]

theorem getItem_removeItem_ne (st : Storage) (k k' : String) (h : k' ≠ k) :
    getItem (removeItem st k) k' = getItem st k' := by
  simp only [getItem, removeItem, find_key_filter_ne st k k' h]

/-! ## Claim C9: `escapeHtml` -/

theorem htmlEscapeMap_no_markup (c' : Char) :
    ∀ c ∈ (htmlEscapeMap c').data, c ≠ '<' ∧ c ≠ '>' ∧ c ≠ '"' ∧ c ≠ '\'' := by
  intro c hc
  unfold htmlEscapeMap at hc
  split_ifs at hc with h1 h2 h3 h4 h5
  · rw [show ("&amp;" : String).data = ['&', 'a', 'm', 'p', ';'] from rfl] at hc
    simp at hc
    rcases hc with h | h | h | h | h <;> subst h <;> decide
  · rw [show ("&lt;" : String).data = ['&', 'l', 't', ';'] from rfl] at hc
    simp at hc
    rcases hc with h | h | h | h <;> subst h <;> decide
  · rw [show ("&gt;" : String).data = ['&', 'g', 't', ';'] from rfl] at hc
    simp at hc
    rcases hc with h | h | h | h <;> subst h <;> decide
  · rw [show ("&quot;" : String).data = ['&', 'q', 'u', 'o', 't', ';'] from rfl] at hc
    simp at hc
    rcases hc with h | h | h | h | h | h <;> subst h <;> decide
  · rw [show ("&#39;" : String).data = ['&', '#', '3', '9', ';'] from rfl] at hc
    simp at hc
    rcases hc with h | h | h | h | h <;> subst h <;> decide
  · rw [show (String.singleton c').data = [c'] from rfl] at hc
    simp at hc
    subst hc
    exact ⟨h2, h3, h4, h5⟩

theorem escapeChars_append (l1 l2 : List Char) :
    escapeChars (l1 ++ l2) = escapeChars l1 ++ escapeChars l2 := by
  induction l1 with
  | nil => rfl
  | cons c cs ih => simp [escapeChars, ih]

theorem escapeChars_no_markup (l : List Char) :
    ∀ c ∈ escapeChars l, c ≠ '<' ∧ c ≠ '>' ∧ c ≠ '"' ∧ c ≠ '\'' := by
  induction l with
  | nil => intro c hc; simp [escapeChars] at hc
  | cons c0 cs ih =>
    intro c hc
    rw [show escapeChars (c0 :: cs) = (htmlEscapeMap c0).data ++ escapeChars cs
      from rfl] at hc
    rcases List.mem_append.mp hc with h | h
    · exact htmlEscapeMap_no_markup c0 c h
    · exact ih c h

/-- C9: for every string input, `escapeHtml` returns a string in which the
characters `<`, `>`, `"` and `'` do not occur; every occurrence of one of the
five special characters is replaced exactly by its HTML entity (and every
other character by itself) at its position; `null`/`undefined` input yields
the empty string; any other non-string input is returned unchanged. -/
theorem escapeHtml_correct :
    (∀ s : String, ∀ c ∈ (escapeHtmlStr s).data,
        c ≠ '<' ∧ c ≠ '>' ∧ c ≠ '"' ∧ c ≠ '\'') ∧
    (∀ (s : String) (pre : List Char) (c : Char) (post : List Char),
        s.data = pre ++ c :: post →
        (escapeHtmlStr s).data =
          escapeChars pre ++ (htmlEscapeMap c).data ++ escapeChars post) ∧
    htmlEscapeMap '&' = "&amp;" ∧
    htmlEscapeMap '<' = "&lt;" ∧
    htmlEscapeMap '>' = "&gt;" ∧
    htmlEscapeMap '"' = "&quot;" ∧
    htmlEscapeMap '\'' = "&#39;" ∧
    (∀ c : Char, isEscapedChar c = false → htmlEscapeMap c = String.singleton c) ∧
    (∀ s : String, escapeHtml (.jstr s) = .jstr (escapeHtmlStr s)) ∧
    escapeHtml .jnull = .jstr "" ∧
    escapeHtml .jundef = .jstr "" ∧
    (∀ n : Int, escapeHtml (.jnum n) = .jnum n) ∧
    (∀ b : Bool, escapeHtml (.jbool b) = .jbool b) := by
  refine ⟨?_, ?_, rfl, rfl, rfl, rfl, rfl, ?_, fun _ => rfl, rfl, rfl,
    fun _ => rfl, fun _ => rfl⟩
  · intro s c hc
    exact escapeChars_no_markup s.data c hc
  · intro s pre c post hs
    rw [show (escapeHtmlStr s).data = escapeChars s.data from rfl, hs,
      escapeChars_append]
    rw [show escapeChars (c :: post) = (htmlEscapeMap c).data ++ escapeChars post
      from rfl, List.append_assoc]
  · intro c hc
    unfold htmlEscapeMap
    split_ifs with h1 h2 h3 h4 h5
    · simp [isEscapedChar, h1] at hc
    · simp [isEscapedChar, h2] at hc
    · simp [isEscapedChar, h3] at hc
    · simp [isEscapedChar, h4] at hc
    · simp [isEscapedChar, h5] at hc
    · rfl

/-- Witness for C9 at concrete inputs. -/
theorem escapeHtml_correct_witness :
    (escapeHtmlStr "a<b").data =
      escapeChars ['a'] ++ (htmlEscapeMap '<').data ++ escapeChars ['b'] ∧
    htmlEscapeMap 'x' = String.singleton 'x' ∧
    ('a' ≠ '<' ∧ 'a' ≠ '>' ∧ 'a' ≠ '"' ∧ 'a' ≠ '\'') :=
  ⟨escapeHtml_correct.2.1 "a<b" ['a'] '<' ['b'] rfl,
   escapeHtml_correct.2.2.2.2.2.2.2.1 'x' (by decide),
   escapeHtml_correct.1 "a" 'a' (by decide)⟩

/-! ## Claim C10: token store round-trip -/

/-- C10: after `setToken t` with a non-empty token, `getToken` returns `t`;
after `setToken null`, or on fresh storage, `getToken` returns `null` (not an
empty string, not an exception). -/
theorem tokenStore_roundtrip (st : Storage) (t : String) (h : t ≠ "") :
    getToken (setToken (some t) st) = some t ∧
    getToken (setToken none st) = none ∧
    getToken ([] : Storage) = none := by
  refine ⟨?_, ?_, rfl⟩
  · have htr : truthy (some t) = true := by simp [truthy, h]
    simp [setToken, htr, getToken, getItem_setItem_self, h]
  · simp [setToken, truthy, getToken, getItem_removeItem_self]

/-- Witness for C10 at a concrete store and token. -/
theorem tokenStore_roundtrip_witness :
    getToken (setToken (some "tok") [("photoshare_token", "old"), ("k", "v")]) =
      some "tok" ∧
    getToken (setToken none [("photoshare_token", "old"), ("k", "v")]) = none ∧
    getToken ([] : Storage) = none :=
  tokenStore_roundtrip [("photoshare_token", "old"), ("k", "v")] "tok" (by decide)

/-! ## Claim C3: the 401 policy

`logout` clears the `photoshare_token`, `photoshare_role` and
`photoshare_name` keys, but the `photoshare_user_id` key written by the login
handler (script.js line 807) and `hydrateSession` (line 1198) is never
removed, so "clears all stored session state" fails on that key. -/

theorem logout_storage_eq (st : Storage) :
    setUserName none (setUserRole none (setToken none st)) =
      removeItem (removeItem (removeItem st "photoshare_token")
        "photoshare_role") "photoshare_name" := by
  simp [setUserName, setUserRole, setToken, truthy]

/-- C3 counterexample: a 401 handled at a session whose storage holds all four
persisted session keys leaves `photoshare_user_id` behind, so the wrapper
does not clear every persisted session key. -/
theorem authLogout401_counterexample :
    getItem
      ((handleAuthResponse ⟨401⟩
          ⟨[("photoshare_token", "t"), ("photoshare_role", "creator"),
            ("photoshare_name", "Ann"), ("photoshare_user_id", "u1")],
           some ⟨"u1", "Ann"⟩, "index.html"⟩).1.storage)
      "photoshare_user_id" = some "u1" := by
  decide

/-- C3 (amended): on a 401 response the wrapper clears the token, role and
name session keys and the in-memory current user, leaves the persisted
user-id key untouched, redirects the browser to `login.html`, and rejects
the in-flight call with `Unauthorized`. -/
theorem authLogout401 (resp : HttpResponse) (s : BrowserSession)
    (h : resp.status = 401) :
    getToken (handleAuthResponse resp s).1.storage = none ∧
    getUserRole (handleAuthResponse resp s).1.storage = none ∧
    getUserName (handleAuthResponse resp s).1.storage = none ∧
    getItem (handleAuthResponse resp s).1.storage "photoshare_user_id" =
      getItem s.storage "photoshare_user_id" ∧
    (handleAuthResponse resp s).1.currentUser = none ∧
    (handleAuthResponse resp s).1.location = "login.html" ∧
    (handleAuthResponse resp s).2 = .rejected "Unauthorized" := by
  have hresp : handleAuthResponse resp s =
      ({ logout s with location := "login.html" }, .rejected "Unauthorized") := by
    unfold handleAuthResponse
    rw [if_pos h]
  rw [hresp]
  refine ⟨?_, ?_, ?_, ?_, rfl, rfl, rfl⟩
  · show getToken (setUserName none (setUserRole none (setToken none s.storage))) = none
    rw [logout_storage_eq]
    unfold getToken
    rw [getItem_removeItem_ne _ "photoshare_name" "photoshare_token" (by decide),
      getItem_removeItem_ne _ "photoshare_role" "photoshare_token" (by decide),
      getItem_removeItem_self]
  · show getUserRole (setUserName none (setUserRole none (setToken none s.storage))) = none
    rw [logout_storage_eq]
    unfold getUserRole
    rw [getItem_removeItem_ne _ "photoshare_name" "photoshare_role" (by decide),
      getItem_removeItem_self]
  · show getUserName (setUserName none (setUserRole none (setToken none s.storage))) = none
    rw [logout_storage_eq]
    unfold getUserName
    rw [getItem_removeItem_self]
  · show getItem (setUserName none (setUserRole none (setToken none s.storage)))
      "photoshare_user_id" = getItem s.storage "photoshare_user_id"
    rw [logout_storage_eq]
    rw [getItem_removeItem_ne _ "photoshare_name" "photoshare_user_id" (by decide),
      getItem_removeItem_ne _ "photoshare_role" "photoshare_user_id" (by decide),
      getItem_removeItem_ne _ "photoshare_token" "photoshare_user_id" (by decide)]

/-- Witness for the amended C3 at a concrete session. -/
theorem authLogout401_witness :
    getToken (handleAuthResponse ⟨401⟩
      ⟨[("photoshare_token", "t"), ("photoshare_user_id", "u1")],
       some ⟨"u1", "Ann"⟩, "index.html"⟩).1.storage = none ∧
    getUserRole (handleAuthResponse ⟨401⟩
      ⟨[("photoshare_token", "t"), ("photoshare_user_id", "u1")],
       some ⟨"u1", "Ann"⟩, "index.html"⟩).1.storage = none ∧
    getUserName (handleAuthResponse ⟨401⟩
      ⟨[("photoshare_token", "t"), ("photoshare_user_id", "u1")],
       some ⟨"u1", "Ann"⟩, "index.html"⟩).1.storage = none ∧
    getItem (handleAuthResponse ⟨401⟩
      ⟨[("photoshare_token", "t"), ("photoshare_user_id", "u1")],
       some ⟨"u1", "Ann"⟩, "index.html"⟩).1.storage "photoshare_user_id" =
      getItem [("photoshare_token", "t"), ("photoshare_user_id", "u1")]
        "photoshare_user_id" ∧
    (handleAuthResponse ⟨401⟩
      ⟨[("photoshare_token", "t"), ("photoshare_user_id", "u1")],
       some ⟨"u1", "Ann"⟩, "index.html"⟩).1.currentUser = none ∧
    (handleAuthResponse ⟨401⟩
      ⟨[("photoshare_token", "t"), ("photoshare_user_id", "u1")],
       some ⟨"u1", "Ann"⟩, "index.html"⟩).1.location = "login.html" ∧
    (handleAuthResponse ⟨401⟩
      ⟨[("photoshare_token", "t"), ("photoshare_user_id", "u1")],
       some ⟨"u1", "Ann"⟩, "index.html"⟩).2 = .rejected "Unauthorized" :=
  authLogout401 ⟨401⟩
    ⟨[("photoshare_token", "t"), ("photoshare_user_id", "u1")],
     some ⟨"u1", "Ann"⟩, "index.html"⟩ rfl

/-! ## Claim C8: request building in `fetchWithAuth` -/

theorem find_key_map_overwrite_ne (hs : HeaderList) (k k' v : String)
    (h : k' ≠ k) :
    (hs.map (fun p => if p.1 = k then (k, v) else p)).find?
        (fun p => p.1 = k') =
      hs.find? (fun p => p.1 = k') := by
  induction hs with
  | nil => rfl
  | cons p hs ih =>
    rw [List.map_cons]
    by_cases hp : p.1 = k
    · have hp' : ¬p.1 = k' := fun e => h (by rw [← e, hp])
      rw [if_pos hp, List.find?_cons_of_neg _ (by simpa using Ne.symm h),
        List.find?_cons_of_neg _ (by simpa using hp'), ih]
    · rw [if_neg hp]
      by_cases hq : p.1 = k'
      · rw [List.find?_cons_of_pos _ (by simpa using hq),
          List.find?_cons_of_pos _ (by simpa using hq)]
      · rw [List.find?_cons_of_neg _ (by simpa using hq),
          List.find?_cons_of_neg _ (by simpa using hq), ih]

theorem find_key_map_overwrite_self (hs : HeaderList) (k v : String)
    (h : hs.any (fun p => p.1 = k) = true) :
    (hs.map (fun p => if p.1 = k then (k, v) else p)).find?
        (fun p => p.1 = k) = some (k, v) := by
  induction hs with
  | nil => simp at h
  | cons p hs ih =>
    rw [List.map_cons]
    by_cases hp : p.1 = k
    · rw [if_pos hp, List.find?_cons_of_pos _ (by simp)]
    · rw [if_neg hp, List.find?_cons_of_neg _ (by simpa using hp)]
      apply ih
      rw [List.any_cons] at h
      simpa [hp] using h

theorem find_key_append_single_self (hs : HeaderList) (k v : String)
    (h : hs.any (fun p => p.1 = k) = false) :
    (hs ++ [(k, v)]).find? (fun p => p.1 = k) = some (k, v) := by
  induction hs with
  | nil => rw [List.nil_append, List.find?_cons_of_pos _ (by simp)]
  | cons p hs ih =>
    rw [List.any_cons, Bool.or_eq_false_iff] at h
    rw [List.cons_append, List.find?_cons_of_neg _ (by simp [h.1])]
    exact ih h.2

theorem find_key_append_single_ne (hs : HeaderList) (k k' v : String)
    (h : k' ≠ k) :
    (hs ++ [(k, v)]).find? (fun p => p.1 = k') =
      hs.find? (fun p => p.1 = k') := by
  induction hs with
  | nil => rw [List.nil_append, List.find?_cons_of_neg _ (by simpa using Ne.symm h)]
  | cons p hs ih =>
    rw [List.cons_append]
    by_cases hq : p.1 = k'
    · rw [List.find?_cons_of_pos _ (by simpa using hq),
        List.find?_cons_of_pos _ (by simpa using hq)]
    · rw [List.find?_cons_of_neg _ (by simpa using hq),
        List.find?_cons_of_neg _ (by simpa using hq), ih]

theorem headersGet_headersSet_self (hs : HeaderList) (k v : String) :
    headersGet (headersSet hs k v) k = some v := by
  unfold headersGet headersSet
  by_cases h : hs.any (fun p => p.1 = k)
  · rw [if_pos h, find_key_map_overwrite_self hs k v h]
    rfl
  · rw [if_neg h, find_key_append_single_self hs k v
      (by simp only [Bool.not_eq_true] at h; exact h)]
    rfl

theorem headersGet_headersSet_ne (hs : HeaderList) (k k' v : String)
    (h : k' ≠ k) :
    headersGet (headersSet hs k v) k' = headersGet hs k' := by
  unfold headersGet headersSet
  by_cases hany : hs.any (fun p => p.1 = k)
  · rw [if_pos hany, find_key_map_overwrite_ne hs k k' v h]
  · rw [if_neg hany, find_key_append_single_ne hs k k' v h]

/-- C8: the wrapper targets the configured base address concatenated with the
relative path and forwards the method; a structured (non-multipart) body is
serialised with `JSON.stringify` and the JSON content-type header is set; a
stored token is attached as `Authorization: Bearer <token>`. -/
theorem buildAuthRequest_correct (apiBase : String) (st : Storage)
    (path : String) (opts : RequestOptions) :
    (buildAuthRequest apiBase st path opts).url = apiBase ++ path ∧
    (buildAuthRequest apiBase st path opts).method = opts.method ∧
    (∀ j : Json, opts.body = .jsonBody j →
        (buildAuthRequest apiBase st path opts).body =
            .strBody (jsonStringify j) ∧
          headersGet (buildAuthRequest apiBase st path opts).headers
            "Content-Type" = some "application/json") ∧
    (∀ t : String, getToken st = some t →
        headersGet (buildAuthRequest apiBase st path opts).headers
          "Authorization" = some ("Bearer " ++ t)) := by
  obtain ⟨m, hdrs, b⟩ := opts
  refine ⟨?_, ?_, ?_, ?_⟩
  · unfold buildAuthRequest
    cases getToken st <;> rfl
  · unfold buildAuthRequest
    cases getToken st <;> rfl
  · intro j hj
    simp only at hj
    subst hj
    unfold buildAuthRequest
    rcases htok : getToken st with _ | t
    · exact ⟨rfl, headersGet_headersSet_self hdrs "Content-Type" "application/json"⟩
    · refine ⟨rfl, ?_⟩
      show headersGet (headersSet (headersSet hdrs "Content-Type" "application/json")
        "Authorization" ("Bearer " ++ t)) "Content-Type" = some "application/json"
      rw [headersGet_headersSet_ne _ "Authorization" "Content-Type" _ (by decide),
        headersGet_headersSet_self]
  · intro t htok
    unfold buildAuthRequest
    rw [htok]
    cases b <;> exact headersGet_headersSet_self _ "Authorization" ("Bearer " ++ t)

/-- Witness for C8 at a concrete call. -/
theorem buildAuthRequest_correct_witness :
    (buildAuthRequest "https://api.example/api" [("photoshare_token", "tk")]
        "/photos" ⟨"POST", [], .jsonBody (.jobj [("title", .jstr "hi")])⟩).url =
      "https://api.example/api" ++ "/photos" ∧
    (buildAuthRequest "https://api.example/api" [("photoshare_token", "tk")]
        "/photos" ⟨"POST", [], .jsonBody (.jobj [("title", .jstr "hi")])⟩).body =
      .strBody (jsonStringify (.jobj [("title", .jstr "hi")])) ∧
    headersGet (buildAuthRequest "https://api.example/api"
        [("photoshare_token", "tk")] "/photos"
        ⟨"POST", [], .jsonBody (.jobj [("title", .jstr "hi")])⟩).headers
      "Content-Type" = some "application/json" ∧
    headersGet (buildAuthRequest "https://api.example/api"
        [("photoshare_token", "tk")] "/photos"
        ⟨"POST", [], .jsonBody (.jobj [("title", .jstr "hi")])⟩).headers
      "Authorization" = some ("Bearer " ++ "tk") := by
  have h := buildAuthRequest_correct "https://api.example/api"
    [("photoshare_token", "tk")] "/photos"
    ⟨"POST", [], .jsonBody (.jobj [("title", .jstr "hi")])⟩
  have hj := h.2.2.1 (.jobj [("title", .jstr "hi")]) rfl
  exact ⟨h.1, hj.1, hj.2, h.2.2.2 "tk" rfl⟩

/-! ## Claim C5: short inputs dispatch nothing -/

/-- C5: an input event whose trimmed text is shorter than 2 characters
clears the suggestion list, cancels any pending fetch timer, and dispatches
no network call, in both widgets. -/
theorem shortInput_clears (s : LocState) (s2 : PeopleState) (cu : Option String)
    (t : String) (h : (jsTrim t).length < 2) :
    (locStep s (.input t)).results = [] ∧
    (locStep s (.input t)).listHidden = true ∧
    (locStep s (.input t)).pendingTimer = none ∧
    (locStep s (.input t)).inFlight = s.inFlight ∧
    (peopleStep cu s2 (.input t)).results = [] ∧
    (peopleStep cu s2 (.input t)).listHidden = true ∧
    (peopleStep cu s2 (.input t)).pendingTimer = none ∧
    (peopleStep cu s2 (.input t)).inFlight = s2.inFlight := by
  unfold locStep peopleStep
  simp [h, locClearSuggestions, peopleClearSuggestions]

/-- Witness for C5: typing a single character. -/
theorem shortInput_clears_witness :
    (locStep (locInit "") (.input "a")).results = [] ∧
    (locStep (locInit "") (.input "a")).listHidden = true ∧
    (locStep (locInit "") (.input "a")).pendingTimer = none ∧
    (locStep (locInit "") (.input "a")).inFlight = (locInit "").inFlight ∧
    (peopleStep none peopleInit (.input "a")).results = [] ∧
    (peopleStep none peopleInit (.input "a")).listHidden = true ∧
    (peopleStep none peopleInit (.input "a")).pendingTimer = none ∧
    (peopleStep none peopleInit (.input "a")).inFlight = peopleInit.inFlight :=
  shortInput_clears (locInit "") peopleInit none "a" (by decide)

/-! ## Claim C2: `reset()` does not cancel the pending timer -/

/-- C2 counterexample: at the reachable state right after typing "ab" the
debounce timer is pending; `reset()` leaves it pending (so the state is not
the post-construction one, whose timer slot is empty), and the leftover
timer still fires and dispatches a fetch after the reset. -/
theorem widgetReset_counterexample :
    (locRun (locInit "") [.input "ab", .reset]).pendingTimer = some "ab" ∧
    (locRun (locInit "") [.input "ab", .reset]).pendingTimer ≠
      (locInit "").pendingTimer ∧
    (locRun (locInit "") [.input "ab", .reset, .timerFire]).inFlight = ["ab"] ∧
    (peopleRun none peopleInit [.input "ab", .reset]).pendingTimer = some "ab" ∧
    (peopleRun none peopleInit [.input "ab", .reset, .timerFire]).inFlight =
      ["ab"] := by
  decide

/-- C2 (amended): `reset()` clears the committed value/selections, the input
text and the suggestion list, but does not cancel a pending debounce timer
(nor affect in-flight fetches): the timer slot and in-flight list are
carried over unchanged. -/
theorem widgetReset (s : LocState) (s2 : PeopleState) (cu : Option String) :
    locStep s .reset =
      { s with selectedValue := "", inputValue := "", results := [],
               listHidden := true } ∧
    peopleStep cu s2 .reset =
      { s2 with selected := [], inputValue := "", results := [],
                listHidden := true } :=
  ⟨rfl, rfl⟩

/-! ## Claim C1: no staleness guard on suggestion responses -/

/-- C1 (violated by the code): the widgets tag queries with no sequence
number and discard nothing.  In this trace the widget dispatches "ab", then
"abc"; the later-dispatched "abc" response arrives first and is rendered,
then the earlier-dispatched "ab" response arrives and overwrites it, so the
rendered list reflects the earlier-dispatched query. -/
theorem staleResponse_overwrites :
    (locRun (locInit "")
      [.input "ab", .timerFire, .input "abc", .timerFire,
       .arrive 1 (.resp 200 (.items [⟨"2", "B-place"⟩])),
       .arrive 0 (.resp 200 (.items [⟨"1", "A-place"⟩]))]).results =
      [⟨"1", "A-place"⟩] ∧
    (locRun (locInit "")
      [.input "ab", .timerFire, .input "abc", .timerFire,
       .arrive 1 (.resp 200 (.items [⟨"2", "B-place"⟩])),
       .arrive 0 (.resp 200 (.items [⟨"1", "A-place"⟩]))]).listHidden = false ∧
    (peopleRun none peopleInit
      [.input "ab", .timerFire, .input "abc", .timerFire,
       .arrive 1 (.resp 200 (.items [⟨"u2", "B-user", none⟩])),
       .arrive 0 (.resp 200 (.items [⟨"u1", "A-user", none⟩]))]).results =
      [⟨"u1", "A-user", some defaultAvatar⟩] := by
  refine ⟨?_, ?_, ?_⟩ <;> rfl

/-! ## Claim C6: debounce coalescing -/

theorem locStep_input_inFlight (s : LocState) (t : String) :
    (locStep s (.input t)).inFlight = s.inFlight := by
  unfold locStep
  by_cases h : (jsTrim t).length < 2
  · simp [h, locClearSuggestions]
  · simp [h]

theorem peopleStep_input_inFlight (cu : Option String) (s : PeopleState)
    (t : String) :
    (peopleStep cu s (.input t)).inFlight = s.inFlight := by
  unfold peopleStep
  by_cases h : (jsTrim t).length < 2
  · simp [h, peopleClearSuggestions]
  · simp [h]

theorem locRun_inputs_inFlight (s : LocState) (ts : List String) :
    (locRun s (ts.map LocEvent.input)).inFlight = s.inFlight := by
  induction ts generalizing s with
  | nil => rfl
  | cons t ts ih =>
    show (locRun (locStep s (.input t)) (ts.map LocEvent.input)).inFlight = _
    rw [ih, locStep_input_inFlight]

theorem peopleRun_inputs_inFlight (cu : Option String) (s : PeopleState)
    (ts : List String) :
    (peopleRun cu s (ts.map PeopleEvent.input)).inFlight = s.inFlight := by
  induction ts generalizing s with
  | nil => rfl
  | cons t ts ih =>
    show (peopleRun cu (peopleStep cu s (.input t))
      (ts.map PeopleEvent.input)).inFlight = _
    rw [ih, peopleStep_input_inFlight]

/-- C6: for any burst of input events each arriving before the pending
debounce timer fires, followed by the single timer firing, exactly one query
is dispatched and it carries the trimmed text of the final input event —
each input event cancels and replaces the pending timer, in both widgets. -/
theorem debounce_coalesces (s : LocState) (s2 : PeopleState) (cu : Option String)
    (ts : List String) (t : String) (h : 2 ≤ (jsTrim t).length) :
    (locRun s (ts.map LocEvent.input ++ [.input t, .timerFire])).inFlight =
      s.inFlight ++ [jsTrim t] ∧
    (locRun s (ts.map LocEvent.input ++ [.input t, .timerFire])).pendingTimer =
      none ∧
    (peopleRun cu s2
        (ts.map PeopleEvent.input ++ [.input t, .timerFire])).inFlight =
      s2.inFlight ++ [jsTrim t] ∧
    (peopleRun cu s2
        (ts.map PeopleEvent.input ++ [.input t, .timerFire])).pendingTimer =
      none := by
  have h2 : ¬(jsTrim t).length < 2 := by omega
  have e1 : locRun s (ts.map LocEvent.input ++ [.input t, .timerFire]) =
      locStep (locStep (locRun s (ts.map LocEvent.input)) (.input t))
        .timerFire := by
    unfold locRun
    rw [List.foldl_append]
    rfl
  have e2 : peopleRun cu s2 (ts.map PeopleEvent.input ++ [.input t, .timerFire]) =
      peopleStep cu (peopleStep cu (peopleRun cu s2 (ts.map PeopleEvent.input))
        (.input t)) .timerFire := by
    unfold peopleRun
    rw [List.foldl_append]
    rfl
  rw [e1, e2]
  rw [show locStep (locRun s (ts.map LocEvent.input)) (.input t) =
    { locRun s (ts.map LocEvent.input) with
        inputValue := t, selectedValue := jsTrim t,
        pendingTimer := some (jsTrim t) } from by
      simp [locStep, h2]]
  rw [show peopleStep cu (peopleRun cu s2 (ts.map PeopleEvent.input)) (.input t) =
    { peopleRun cu s2 (ts.map PeopleEvent.input) with
        inputValue := t, pendingTimer := some (jsTrim t) } from by
      simp [peopleStep, h2]]
  refine ⟨?_, rfl, ?_, rfl⟩
  · show (locRun s (ts.map LocEvent.input)).inFlight ++ [jsTrim t] =
      s.inFlight ++ [jsTrim t]
    rw [locRun_inputs_inFlight]
  · show (peopleRun cu s2 (ts.map PeopleEvent.input)).inFlight ++ [jsTrim t] =
      s2.inFlight ++ [jsTrim t]
    rw [peopleRun_inputs_inFlight]

/-- Witness for C6: three rapid keystrokes, one dispatched query "par". -/
theorem debounce_coalesces_witness :
    (locRun (locInit "")
        (["p", "pa"].map LocEvent.input ++ [.input "par", .timerFire])).inFlight =
      (locInit "").inFlight ++ [jsTrim "par"] ∧
    (locRun (locInit "")
        (["p", "pa"].map LocEvent.input ++
          [.input "par", .timerFire])).pendingTimer = none ∧
    (peopleRun none peopleInit
        (["p", "pa"].map PeopleEvent.input ++
          [.input "par", .timerFire])).inFlight =
      peopleInit.inFlight ++ [jsTrim "par"] ∧
    (peopleRun none peopleInit
        (["p", "pa"].map PeopleEvent.input ++
          [.input "par", .timerFire])).pendingTimer = none :=
  debounce_coalesces (locInit "") peopleInit none ["p", "pa"] "par" (by decide)

/-! ## Claim C7: fetch failures are absorbed and clear the list -/

theorem locFetchResponse_failure_clears (s : LocState)
    (out : FetchOutcome RawPlace) (ho : out.isFailure = true) :
    (locFetchResponse s out).results = [] ∧
    (locFetchResponse s out).listHidden = true := by
  rcases out with _ | ⟨status, payload⟩
  · simp [locFetchResponse, locFetchTry, locClearSuggestions]
  · by_cases hok : resOk status
    · cases payload with
      | malformed => simp [locFetchResponse, locFetchTry, hok, locClearSuggestions]
      | nonArray => simp [locFetchResponse, locFetchTry, hok, locClearSuggestions]
      | nullish => simp [FetchOutcome.isFailure, hok] at ho
      | items l => simp [FetchOutcome.isFailure, hok] at ho
    · simp [locFetchResponse, locFetchTry, hok, locClearSuggestions]

theorem peopleFetchResponse_failure_clears (cu : Option String)
    (s : PeopleState) (out : FetchOutcome Person) (ho : out.isFailure = true) :
    (peopleFetchResponse cu s out).results = [] ∧
    (peopleFetchResponse cu s out).listHidden = true := by
  rcases out with _ | ⟨status, payload⟩
  · simp [peopleFetchResponse, peopleFetchTry, peopleClearSuggestions]
  · by_cases h401 : status = 401
    · simp [peopleFetchResponse, peopleFetchTry, h401, peopleClearSuggestions]
    · by_cases hok : resOk status
      · cases payload with
        | malformed =>
            simp [peopleFetchResponse, peopleFetchTry, h401, hok,
              peopleClearSuggestions]
        | nonArray =>
            simp [peopleFetchResponse, peopleFetchTry, h401, hok,
              peopleClearSuggestions]
        | nullish => simp [FetchOutcome.isFailure, hok] at ho
        | items l => simp [FetchOutcome.isFailure, hok] at ho
      · simp [peopleFetchResponse, peopleFetchTry, h401, hok,
          peopleClearSuggestions]

/-- C7: every failure mode of a suggestion fetch — transport failure
(including the 401 rejection of `fetchWithAuth` for the people selector),
non-success HTTP status, or an unusable response payload — leaves the widget
with an empty, hidden suggestion list; the `try`/`catch` absorbs the error
inside the widget, so the step function is total and no exception reaches
the hosting form. -/
theorem fetchFailure_clears (s : LocState) (s2 : PeopleState)
    (cu : Option String) (i j : Nat) (out : FetchOutcome RawPlace)
    (out2 : FetchOutcome Person)
    (hi : i < s.inFlight.length) (hj : j < s2.inFlight.length)
    (ho : out.isFailure = true) (ho2 : out2.isFailure = true) :
    (locStep s (.arrive i out)).results = [] ∧
    (locStep s (.arrive i out)).listHidden = true ∧
    (peopleStep cu s2 (.arrive j out2)).results = [] ∧
    (peopleStep cu s2 (.arrive j out2)).listHidden = true := by
  have hl := locFetchResponse_failure_clears
    { s with inFlight := s.inFlight.eraseIdx i } out ho
  have hp := peopleFetchResponse_failure_clears cu
    { s2 with inFlight := s2.inFlight.eraseIdx j } out2 ho2
  simp only [locStep, peopleStep]
  rw [if_pos hi, if_pos hj]
  exact ⟨hl.1, hl.2, hp.1, hp.2⟩

/-- Witness for C7: a network failure (location) and an HTTP 500 with a
malformed body (people), each against one in-flight fetch. -/
theorem fetchFailure_clears_witness :
    (locStep { locInit "" with inFlight := ["ab"] }
        (.arrive 0 .netFail)).results = [] ∧
    (locStep { locInit "" with inFlight := ["ab"] }
        (.arrive 0 .netFail)).listHidden = true ∧
    (peopleStep none { peopleInit with inFlight := ["ab"] }
        (.arrive 0 (.resp 500 .malformed))).results = [] ∧
    (peopleStep none { peopleInit with inFlight := ["ab"] }
        (.arrive 0 (.resp 500 .malformed))).listHidden = true :=
  fetchFailure_clears { locInit "" with inFlight := ["ab"] }
    { peopleInit with inFlight := ["ab"] } none 0 0 .netFail
    (.resp 500 .malformed) (by decide) (by decide) rfl (by decide)

/-! ## Claim C4: the selection set has unique ids and never the self id -/

/-- Invariant maintained by the people selector: the selected ids are
distinct and never the current user's; moreover every rendered suggestion is
outside the selected ids and not the current user (because the fetch filter
ran against the then-current selection, and commits clear the list). -/
def SelectedInv (cu : Option String) (s : PeopleState) : Prop :=
  (s.selected.map Person.id).Nodup ∧
  (∀ p ∈ s.selected, notSelf cu p = true) ∧
  (∀ p ∈ s.results, p.id ∉ s.selected.map Person.id ∧ notSelf cu p = true)

theorem peopleFilterResults_sound (cu : Option String) (sel : List Person)
    (l : List Person) :
    ∀ p ∈ peopleFilterResults cu sel l,
      p.id ∉ sel.map Person.id ∧ notSelf cu p = true := by
  intro p hp
  unfold peopleFilterResults at hp
  rcases List.mem_map.mp hp with ⟨q, hq, hmap⟩
  have hfil := (List.mem_filter.mp hq).2
  rw [Bool.and_eq_true] at hfil
  have hid : p.id = q.id := by rw [← hmap]
  have hself : notSelf cu p = notSelf cu q := by
    unfold notSelf
    cases cu with
    | none => rfl
    | some uid => rw [hid]
  constructor
  · rw [hid]
    have h1 := hfil.1
    rw [Bool.not_eq_true', decide_eq_false_iff_not] at h1
    exact h1
  · rw [hself]
    exact hfil.2

theorem peopleFetchResponse_cases (cu : Option String) (s : PeopleState)
    (out : FetchOutcome Person) :
    (peopleFetchResponse cu s out).selected = s.selected ∧
    ((peopleFetchResponse cu s out).results = [] ∨
      ∃ l, (peopleFetchResponse cu s out).results =
        peopleFilterResults cu s.selected l) := by
  rcases out with _ | ⟨status, payload⟩
  · simp [peopleFetchResponse, peopleFetchTry, peopleClearSuggestions]
  · by_cases h401 : status = 401
    · simp [peopleFetchResponse, peopleFetchTry, h401, peopleClearSuggestions]
    · by_cases hok : resOk status = true
      · cases payload with
        | malformed =>
            simp [peopleFetchResponse, peopleFetchTry, h401, hok,
              peopleClearSuggestions]
        | nonArray =>
            simp [peopleFetchResponse, peopleFetchTry, h401, hok,
              peopleClearSuggestions]
        | nullish =>
            simp [peopleFetchResponse, peopleFetchTry, h401, hok,
              peopleClearSuggestions]
        | items l =>
            by_cases hemp : (peopleFilterResults cu s.selected l).isEmpty = true
            · simp [peopleFetchResponse, peopleFetchTry, h401, hok, hemp,
                peopleClearSuggestions]
            · refine ⟨?_, Or.inr ⟨l, ?_⟩⟩ <;>
                simp [peopleFetchResponse, peopleFetchTry, h401, hok, hemp]
      · simp [peopleFetchResponse, peopleFetchTry, h401, hok,
          peopleClearSuggestions]

theorem selectedInv_fetchResponse (cu : Option String) (s : PeopleState)
    (out : FetchOutcome Person) (h : SelectedInv cu s) :
    SelectedInv cu (peopleFetchResponse cu s out) := by
  obtain ⟨hnd, hns, _⟩ := h
  obtain ⟨hsel, hres2⟩ := peopleFetchResponse_cases cu s out
  refine ⟨by rw [hsel]; exact hnd, ?_, ?_⟩
  · intro p hp
    rw [hsel] at hp
    exact hns p hp
  · intro p hp
    rcases hres2 with he | ⟨l, he⟩
    · rw [he] at hp
      simp at hp
    · rw [he] at hp
      have hs := peopleFilterResults_sound cu s.selected l p hp
      rw [hsel]
      exact hs

theorem selectedInv_step (cu : Option String) (s : PeopleState)
    (e : PeopleEvent) (h : SelectedInv cu s) :
    SelectedInv cu (peopleStep cu s e) := by
  obtain ⟨hnd, hns, hres⟩ := h
  cases e with
  | input t =>
      simp only [peopleStep]
      by_cases ht : (jsTrim t).length < 2
      · rw [if_pos ht]
        exact ⟨hnd, hns, by simp [peopleClearSuggestions]⟩
      · rw [if_neg ht]
        exact ⟨hnd, hns, hres⟩
  | timerFire =>
      simp only [peopleStep]
      rcases s.pendingTimer with _ | q
      · exact ⟨hnd, hns, hres⟩
      · exact ⟨hnd, hns, hres⟩
  | arrive i out =>
      simp only [peopleStep]
      by_cases hi : i < s.inFlight.length
      · rw [if_pos hi]
        exact selectedInv_fetchResponse cu _ out ⟨hnd, hns, hres⟩
      · rw [if_neg hi]
        exact ⟨hnd, hns, hres⟩
  | commit index =>
      simp only [peopleStep]
      rcases hg : s.results[index]? with _ | p
      · exact ⟨hnd, hns, hres⟩
      · have hp := hres p (List.getElem?_mem hg)
        refine ⟨?_, ?_, by simp [peopleClearSuggestions]⟩
        · show ((s.selected ++ [p]).map Person.id).Nodup
          rw [List.map_append]
          refine hnd.append (List.nodup_singleton _) ?_
          intro a ha hb
          simp at hb
          subst hb
          exact hp.1 ha
        · intro q hq
          rcases List.mem_append.mp hq with hq1 | hq1
          · exact hns q hq1
          · simp at hq1
            subst hq1
            exact hp.2
  | removeChip pid =>
      simp only [peopleStep]
      refine ⟨?_, ?_, ?_⟩
      · exact List.Nodup.sublist
          ((List.filter_sublist s.selected).map Person.id) hnd
      · intro p hp
        exact hns p (List.mem_of_mem_filter hp)
      · intro p hp
        obtain ⟨h1, h2⟩ := hres p hp
        refine ⟨?_, h2⟩
        intro hmem
        rcases List.mem_map.mp hmem with ⟨q, hq, he⟩
        exact h1 (List.mem_map.mpr ⟨q, List.mem_of_mem_filter hq, he⟩)
  | blurFire =>
      exact ⟨hnd, hns, by simp [peopleStep, peopleClearSuggestions]⟩
  | reset =>
      refine ⟨by simp [peopleStep, peopleClearSuggestions], ?_, ?_⟩
      · intro p hp
        simp [peopleStep, peopleClearSuggestions] at hp
      · intro p hp
        simp [peopleStep, peopleClearSuggestions] at hp

theorem selectedInv_run (cu : Option String) (events : List PeopleEvent) :
    ∀ s : PeopleState, SelectedInv cu s →
      SelectedInv cu (peopleRun cu s events) := by
  induction events with
  | nil => intro s hs; exact hs
  | cons e es ih =>
      intro s hs
      exact ih (peopleStep cu s e) (selectedInv_step cu s e hs)

/-- C4: over every event trace of the people selector from construction, the
selection set never contains two entries with the same id and never contains
an entry whose id is the current authenticated user's id. -/
theorem peopleSelected_invariant (cu : Option String)
    (events : List PeopleEvent) :
    ((peopleRun cu peopleInit events).selected.map Person.id).Nodup ∧
    ∀ p ∈ (peopleRun cu peopleInit events).selected, notSelf cu p = true := by
  have h := selectedInv_run cu events peopleInit
    ⟨by simp [peopleInit], by simp [peopleInit], by simp [peopleInit]⟩
  exact ⟨h.1, h.2.1⟩

/-- Witness for C4: a search returning a duplicate id, the already-selected
id and the current user's own id, followed by commits. -/
theorem peopleSelected_invariant_witness :
    (((peopleRun (some "me") peopleInit
        [.input "ab", .timerFire,
         .arrive 0 (.resp 200 (.items
           [⟨"u1", "A", none⟩, ⟨"me", "Me", none⟩, ⟨"u1", "A", none⟩])),
         .commit 0, .input "ab", .timerFire,
         .arrive 0 (.resp 200 (.items [⟨"u1", "A", none⟩, ⟨"u2", "B", none⟩])),
         .commit 0]).selected.map Person.id)).Nodup ∧
    notSelf (some "me") ⟨"u1", "A", some defaultAvatar⟩ = true :=
  ⟨(peopleSelected_invariant (some "me")
      [.input "ab", .timerFire,
       .arrive 0 (.resp 200 (.items
         [⟨"u1", "A", none⟩, ⟨"me", "Me", none⟩, ⟨"u1", "A", none⟩])),
       .commit 0, .input "ab", .timerFire,
       .arrive 0 (.resp 200 (.items [⟨"u1", "A", none⟩, ⟨"u2", "B", none⟩])),
       .commit 0]).1,
   (peopleSelected_invariant (some "me")
      [.input "ab", .timerFire,
       .arrive 0 (.resp 200 (.items
         [⟨"u1", "A", none⟩, ⟨"me", "Me", none⟩, ⟨"u1", "A", none⟩])),
       .commit 0, .input "ab", .timerFire,
       .arrive 0 (.resp 200 (.items [⟨"u1", "A", none⟩, ⟨"u2", "B", none⟩])),
       .commit 0]).2 ⟨"u1", "A", some defaultAvatar⟩ (by decide)⟩

end PhotoShare
